import Mathlib

/-!
Shallow embedding of `scripts/process_excel.py`: the row-enrichment engine
(filter predicate, per-field skip/fetch decision, retry loop around the
completion gateway, value extraction, cell writes, final save) together with
the `OpenAIClient.create_completion` wrapper.  Machine effects (gateway calls,
sleeps, cell writes, workbook save) are recorded as an explicit event trace;
the gateway itself is an oracle parameter, as the spec treats it as an opaque
external collaborator.
-/

namespace ExcelProc

/-- Python runtime values as they occur in cells, filter-criterion values and
gateway results.  `vnone` models both Python `None` and a pandas NaN cell
(`pd.isna` holds exactly for it).  Spreadsheet cells proper only ever hold
scalars (`vnone`, `vstr`, `vint`); lists appear in `in`-criterion values and
dicts in structured gateway results. -/
inductive PyVal where
  | vnone
  | vstr (s : String)
  | vint (n : Int)
  | vlist (xs : List PyVal)
  | vdict (kvs : List (String × PyVal))

mutual

/-- Structural boolean equality on `PyVal` (CPython `==` restricted to the
operand shapes that actually occur here: scalars, and lists elementwise). -/
def pyBeq : PyVal → PyVal → Bool
  | .vnone, .vnone => true
  | .vstr a, .vstr b => a == b
  | .vint a, .vint b => a == b
  | .vlist xs, .vlist ys => listPyBeq xs ys
  | .vdict xs, .vdict ys => kvPyBeq xs ys
  | _, _ => false

def listPyBeq : List PyVal → List PyVal → Bool
  | [], [] => true
  | a :: as0, b :: bs0 => pyBeq a b && listPyBeq as0 bs0
  | _, _ => false

def kvPyBeq : List (String × PyVal) → List (String × PyVal) → Bool
  | [], [] => true
  | (k, a) :: as0, (l, b) :: bs0 => k == l && pyBeq a b && kvPyBeq as0 bs0
  | _, _ => false

end

instance : BEq PyVal := ⟨pyBeq⟩

/-- Python truthiness (`if result:` / `if a`): `None`, `''`, `0`, `[]`, `{}`
are falsy, everything else truthy. -/
def truthy : PyVal → Bool
  | .vnone => false
  | .vstr s => !s.isEmpty
  | .vint n => n != 0
  | .vlist xs => !xs.isEmpty
  | .vdict kvs => !kvs.isEmpty

/-- The skip test of `process_row` line 205:
`pd.isna(current_value) or str(current_value).strip() == ''`.
Only a NaN/None cell or a whitespace-only string is blank (`strip()` yields
the empty string exactly when every character is whitespace); `str()` of a
number or container never strips to the empty string. -/
def isBlankCell : PyVal → Bool
  | .vnone => true
  | .vstr s => s.data.all (fun c => c.isWhitespace)
  | _ => false

abbrev ColName := String

/-- A row view: `pd.Series(row, index=header)` — an ordered association of
column names to cell values. -/
abbrev Row := List (ColName × PyVal)

/-- `row_data.get(c)` / `row_data[c]`: first matching column, if any. -/
def rowGet (row : Row) (c : ColName) : Option PyVal :=
  (row.find? (fun p => p.1 == c)).map (·.2)

/-- `c in row_data`: index membership of the Series. -/
def rowHas (row : Row) (c : ColName) : Bool :=
  row.any (fun p => p.1 == c)

/-- Python `==` between filter operands (`operator.eq`): structural equality;
values of different types compare unequal, `None == None` is true. -/
def pyEq (a b : PyVal) : Bool := a == b

/-- `needle ⊑ hay` as lists of characters: Python's `needle in hay` substring
test for strings. -/
def listContainsSub (needle : List Char) : List Char → Bool
  | [] => needle.isEmpty
  | c :: rest => needle.isPrefixOf (c :: rest) || listContainsSub needle rest

def strContainsSub (hay needle : String) : Bool :=
  listContainsSub needle.data hay.data

/-- The `"contains"` op `lambda a, b: b in a if isinstance(a, str) else False`:
a non-string cell yields `False`; for a string cell, `b in a` needs `b` to be
a string too, otherwise CPython raises `TypeError` (caught by the filter's
`except`, which fails the criterion). -/
def containsOp (a b : PyVal) : Except Unit Bool :=
  match a with
  | .vstr s =>
    match b with
    | .vstr t => Except.ok (strContainsSub s t)
    | _ => Except.error ()
  | _ => Except.ok false

/-- Python ordered comparison for `greater_than`/`less_than`: numbers with
numbers and strings with strings (lexicographic); mixed operand types raise
`TypeError` (caught by the filter's `except`, failing the criterion). -/
def pyCompare : PyVal → PyVal → Except Unit Ordering
  | .vint a, .vint b => Except.ok (compare a b)
  | .vstr a, .vstr b => Except.ok (compare a b)
  | _, _ => Except.error ()

/-- One declarative filter criterion (`filter.criteria` entry). -/
structure Criterion where
  column : ColName
  operation : String
  value : PyVal

/-- The operation names present in the `ops` mapping of `matches_criteria`. -/
def knownOp (op : String) : Bool :=
  op == "equals" || op == "contains" || op == "in" ||
    op == "greater_than" || op == "less_than"

/-- Applying a (non-`"in"`) operation function to the cell and criterion
value; `Except.error` models an exception inside the filter's `try`. -/
def applyOp (op : String) (a b : PyVal) : Except Unit Bool :=
  if op == "equals" then Except.ok (pyEq a b)
  else if op == "contains" then containsOp a b
  else if op == "greater_than" then (pyCompare a b).map (· == Ordering.gt)
  else if op == "less_than" then (pyCompare a b).map (· == Ordering.lt)
  else Except.error ()

/-- One iteration of the loop in `ExcelProcessor.matches_criteria`
(lines 150-191): a missing column fails the row; an unsupported operation
fails the row; `"in"` demands a list value and a truthy cell; other
operations first fail on a `None` cell, then apply the op with any exception
caught as failure. -/
def criterionHolds (row : Row) (c : Criterion) : Bool :=
  match rowGet row c.column with
  | Option.none => false
  | Option.some cv =>
    if !(knownOp c.operation) then false
    else if c.operation == "in" then
      match c.value with
      | .vlist xs => truthy cv && xs.any (fun x => pyEq cv x)
      | _ => false
    else
      match cv with
      | .vnone => false
      | _ =>
        match applyOp c.operation cv c.value with
        | Except.ok r => r
        | Except.error _ => false

/-- `ExcelProcessor.matches_criteria`: true outright when filtering is
disabled or no criteria are configured; otherwise the conjunction over all
criteria, short-circuiting on the first failure. -/
def matches_criteria (enabled : Bool) (criteria : List Criterion) (row : Row) : Bool :=
  if !enabled || criteria.isEmpty then true
  else criteria.all (criterionHolds row)

/-- The structured-output contract of an output field (`schema` key of an
output-column config): the optional function name and the ordered property
names of `schema['schema']['properties']`. -/
structure Schema where
  name : Option String
  props : List String

/-- One output-column configuration (`columns.output` entry).  `max_tokens`
and `temperature` only parameterize the gateway request, which is an oracle
here, so they are not carried. -/
structure FieldConfig where
  prompt : String
  fetch_all : Bool
  schema : Option Schema
  input_columns : List ColName

/-- `processing.*` options with their `.get` defaults. -/
structure ProcCfg where
  sleep_time : Nat
  retry_attempts : Nat
  retry_delay : Nat

/-- `str(value)` as interpolated into the prompt; cells hold scalars
(`None`, text, numbers), for which this matches CPython.  The container
cases never occur in a cell and are rendered with a placeholder. -/
def pyToStr : PyVal → String
  | .vnone => "None"
  | .vstr s => s
  | .vint n => toString n
  | .vlist _ => "<list>"
  | .vdict _ => "<dict>"

/-- Prompt construction, `process_row` lines 212-214: the template followed by
one `"\n<col>: <value>"` line per configured input column.  `row_data[col]`
on a column absent from the Series raises `KeyError`, modeled as
`Except.error col`; note this happens OUTSIDE the retry loop's `try`. -/
def buildPrompt (template : String) (inputCols : List ColName) (row : Row) :
    Except ColName String :=
  inputCols.foldlM
    (fun acc c =>
      match rowGet row c with
      | Option.some v => Except.ok (acc ++ "\n" ++ c ++ ": " ++ pyToStr v)
      | Option.none => Except.error c)
    template

/-- Observable machine effects of one run, in order of occurrence. -/
inductive Event where
  | gwCall (column : ColName) (attempt : Nat) (prompt : String)
  | retrySleep (secs : Nat)
  | paceSleep (secs : Nat)
  | write (column : ColName) (rowNum : Nat) (value : PyVal)
  | save

def Event.isGwCall : Event → Bool
  | .gwCall .. => true
  | _ => false

def Event.isWriteEv : Event → Bool
  | .write .. => true
  | _ => false

def Event.isRetrySleepEv : Event → Bool
  | .retrySleep _ => true
  | _ => false

def Event.isSave : Event → Bool
  | .save => true
  | _ => false

/-- What one iteration of the retry loop's `try` body observes:
`create_completion` returned a value (Python `None` is `res .vnone`, an empty
string `res (.vstr "")` — both falsy), or the body raised an exception
(caught at line 279). -/
inductive GwResult where
  | res (v : PyVal)
  | exn

/-- `dict.get(k)` on a structured result. -/
def dictGet (kvs : List (String × PyVal)) (k : String) : Option PyVal :=
  (kvs.find? (fun p => p.1 == k)).map (·.2)

/-- Value extraction, `process_row` lines 243-264: a dict result under a
schema with a non-empty property set yields `result.get(first_prop, 'N/A')`;
a dict under a schema with no properties, a dict without a schema, and any
non-dict result are used whole. -/
def extractValue (schema : Option Schema) (result : PyVal) : PyVal :=
  match result, schema with
  | .vdict kvs, Option.some sch =>
    match sch.props with
    | [] => result
    | p :: _ => (dictGet kvs p).getD (.vstr "N/A")
  | _, _ => result

/-- `ExcelProcessor.get_column_letter`: scan the header row for the first
cell whose value equals the column name; `Option.none` models the
`ValueError` raised when no header matches. -/
def colIndex (header : List ColName) (c : ColName) : Option Nat :=
  header.findIdx? (fun h => h == c)

/-- The retry loop of `process_row` (lines 230-284), producing the event
trace for one field and tracking whether the `cell_reference` local of
`process_row` is bound.  Per attempt: one gateway invocation.  A truthy
result is extracted and, when the output column resolves, written (binding
`cell_reference` and breaking the loop).  When `get_column_letter` raises
instead, the inner handler's log f-string reads `cell_reference`
(line 274): if an earlier write in this `process_row` call bound it, the
handler logs with the stale reference and breaks; if not, the handler
itself raises `UnboundLocalError`, which the outer `except` (line 279)
catches, sleeping `retry_delay` and retrying.  A falsy result moves to the
next attempt with no sleep; an exception from the attempt body sleeps
`retry_delay` and retries.  `fuel` counts the attempts remaining, `attempt`
the 1-based attempt number; returns the events and the final binding
state. -/
def runAttempts (header : List ColName) (rowNum : Nat) (outCol : ColName)
    (schema : Option Schema) (retryDelay : Nat) (prompt : String)
    (gw : Nat → GwResult) : Nat → Nat → Bool → List Event × Bool
  | 0, _, bound => ([], bound)
  | fuel + 1, attempt, bound =>
    let rest :=
      match gw attempt with
      | .exn =>
        let r := runAttempts header rowNum outCol schema retryDelay prompt gw fuel
          (attempt + 1) bound
        (Event.retrySleep retryDelay :: r.1, r.2)
      | .res v =>
        if truthy v then
          match colIndex header outCol with
          | Option.some _ => ([Event.write outCol rowNum (extractValue schema v)], true)
          | Option.none =>
            if bound then ([], bound)
            else
              let r := runAttempts header rowNum outCol schema retryDelay prompt gw fuel
                (attempt + 1) bound
              (Event.retrySleep retryDelay :: r.1, r.2)
        else
          runAttempts header rowNum outCol schema retryDelay prompt gw fuel
            (attempt + 1) bound
    (Event.gwCall outCol attempt prompt :: rest.1, rest.2)

/-- The body of `process_row`'s per-field loop (lines 195-287) for one output
column: the skip/fetch decision, prompt construction (whose `KeyError` on a
missing input column escapes, returned in the last component as
`Option.some col`), the retry loop, and the unconditional pacing sleep
after it.  `bound` carries whether `cell_reference` is bound on entry; the
middle component returns it, possibly updated by a successful write. -/
def processField (cfg : ProcCfg) (header : List ColName) (rowNum : Nat) (row : Row)
    (outCol : ColName) (fc : FieldConfig) (gw : Nat → GwResult) (bound : Bool) :
    List Event × Bool × Option ColName :=
  let current := (rowGet row outCol).getD PyVal.vnone
  let shouldFetch := fc.fetch_all || isBlankCell current
  if !shouldFetch then ([], bound, Option.none)
  else
    match buildPrompt fc.prompt fc.input_columns row with
    | Except.error c => ([], bound, Option.some c)
    | Except.ok prompt =>
      let r := runAttempts header rowNum outCol fc.schema cfg.retry_delay prompt gw
        cfg.retry_attempts 1 bound
      (r.1 ++ [Event.paceSleep cfg.sleep_time], r.2, Option.none)

/-- The per-field loop of `process_row`, threading the `cell_reference`
binding state across the fields of one row and stopping (with the events
performed so far) at the first field whose processing raises. -/
def processFields (cfg : ProcCfg) (header : List ColName) (rowNum : Nat) (row : Row)
    (gw : ColName → Nat → GwResult) :
    Bool → List (ColName × FieldConfig) → List Event × Option ColName
  | _, [] => ([], Option.none)
  | bound, (col, fc) :: rest =>
    let r := processField cfg header rowNum row col fc (gw col) bound
    match r.2.2 with
    | Option.some e => (r.1, Option.some e)
    | Option.none =>
      let rr := processFields cfg header rowNum row gw r.2.1 rest
      (r.1 ++ rr.1, rr.2)

/-- `ExcelProcessor.process_row`: the output fields in declaration order;
the `cell_reference` local is unbound at entry to each call. -/
def processRow (cfg : ProcCfg) (header : List ColName) (rowNum : Nat) (row : Row)
    (gw : ColName → Nat → GwResult) (fields : List (ColName × FieldConfig)) :
    List Event × Option ColName :=
  processFields cfg header rowNum row gw false fields

/-- The in-memory worksheet: the header row and the data rows (data row `i`
is Excel row `i + 2`), each aligned with the header. -/
structure Sheet where
  header : List ColName
  rows : List (List PyVal)

/-- `self.sheet[f"{letter}{row_number}"].value = value`. -/
def setCell (s : Sheet) (rowNum colIdx : Nat) (v : PyVal) : Sheet :=
  { s with rows := s.rows.set (rowNum - 2) ((s.rows.getD (rowNum - 2) []).set colIdx v) }

/-- Replay one trace event against the sheet; only writes mutate it. -/
def applyEvent (s : Sheet) (e : Event) : Sheet :=
  match e with
  | .write col rowNum v =>
    match colIndex s.header col with
    | Option.some i => setCell s rowNum i v
    | Option.none => s
  | _ => s

/-- The row loop of `ExcelProcessor.process_excel` (lines 302-314): `fuel`
data rows starting at Excel row `idx`; each row is snapshotted from the
current sheet (`iter_rows` values plus the header as Series index), filtered,
and processed; its writes are committed to the sheet before the next row.  An
exception escaping a row stops the loop and is carried out. -/
def runRows (cfg : ProcCfg) (fields : List (ColName × FieldConfig)) (enabled : Bool)
    (criteria : List Criterion) (gw : Nat → ColName → Nat → GwResult) :
    Nat → Nat → Sheet → Sheet × List Event × Option ColName
  | 0, _, s => (s, [], Option.none)
  | fuel + 1, idx, s =>
    let row := s.header.zip (s.rows.getD (idx - 2) [])
    if matches_criteria enabled criteria row then
      let pr := processRow cfg s.header idx row (gw idx) fields
      let s2 := pr.1.foldl applyEvent s
      match pr.2 with
      | Option.some e => (s2, pr.1, Option.some e)
      | Option.none =>
        let rest := runRows cfg fields enabled criteria gw fuel (idx + 1) s2
        (rest.1, pr.1 ++ rest.2.1, rest.2.2)
    else
      runRows cfg fields enabled criteria gw fuel (idx + 1) s

/-- `ExcelProcessor.process_excel`: iterate all data rows from Excel row 2;
the `finally` block saves the workbook exactly once whether the loop
completed or raised, so `Event.save` always closes the trace; a carried
exception (`Option.some col`) re-raises after the save. -/
def process_excel (cfg : ProcCfg) (fields : List (ColName × FieldConfig))
    (enabled : Bool) (criteria : List Criterion) (sheet : Sheet)
    (gw : Nat → ColName → Nat → GwResult) : Sheet × List Event × Option ColName :=
  let r := runRows cfg fields enabled criteria gw sheet.rows.length 2 sheet
  (r.1, r.2.1 ++ [Event.save], r.2.2)

/-- The response behaviors `OpenAIClient.create_completion` can face: the
API call raised; the message carried a `function_call` whose `arguments`
JSON parsed to a value (`Option.none` = `json.loads` raised); or the message
carried plain content (`Option.none` = a `None` content field). -/
inductive ApiBehavior where
  | raises
  | fnCall (parsedArgs : Option PyVal)
  | content (text : Option String)

/-- The body of `create_completion`'s `try` block (lines 57-88): raises when
the API call or `json.loads` raises; otherwise returns the parsed arguments
dict, or the stripped content (the empty string when content is falsy). -/
def create_completion_body : ApiBehavior → Except Unit (Option PyVal)
  | .raises => Except.error ()
  | .fnCall Option.none => Except.error ()
  | .fnCall (Option.some a) => Except.ok (Option.some a)
  | .content t => Except.ok (Option.some (PyVal.vstr ((t.getD "").trim)))

/-- `OpenAIClient.create_completion` (lines 49-92): the whole body runs under
`try`, and the `except Exception` handler turns any exception into a `None`
return. -/
def create_completion (b : ApiBehavior) : Option PyVal :=
  match create_completion_body b with
  | Except.ok v => v
  | Except.error _ => Option.none

/-! ## Helper lemmas -/

/-- A row has a column iff its lookup succeeds. -/
theorem rowGet_eq_none_of_not_has (row : Row) (c : ColName)
    (h : rowHas row c = false) : rowGet row c = Option.none := by
  unfold rowGet
  have : row.find? (fun p => p.1 == c) = Option.none := by
    rw [List.find?_eq_none]
    intro x hx
    unfold rowHas at h
    have := List.any_eq_false.mp h x hx
    simpa using this
  rw [this]
  rfl

theorem rowGet_isSome_of_has (row : Row) (c : ColName)
    (h : rowHas row c = true) : ∃ v, rowGet row c = Option.some v := by
  unfold rowHas at h
  obtain ⟨x, hx, hpx⟩ := List.any_eq_true.mp h
  have hfind : (row.find? (fun p => p.1 == c)).isSome :=
    List.find?_isSome.mpr ⟨x, hx, hpx⟩
  obtain ⟨y, hy⟩ := Option.isSome_iff_exists.mp hfind
  exact ⟨y.2, by unfold rowGet; rw [hy]; rfl⟩

/-- A non-blank destination cell together with `fetch_all = false` makes
`process_row` skip the field entirely: no events, no exception, binding
state untouched. -/
theorem processField_skips (cfg : ProcCfg) (header : List ColName) (rowNum : Nat)
    (row : Row) (outCol : ColName) (fc : FieldConfig) (gw : Nat → GwResult)
    (bound : Bool) (hfa : fc.fetch_all = false)
    (hnb : isBlankCell ((rowGet row outCol).getD PyVal.vnone) = false) :
    processField cfg header rowNum row outCol fc gw bound = ([], bound, Option.none) := by
  unfold processField
  simp [hfa, hnb]

/-- Prompt construction succeeds when every configured input column is
present in the row. -/
theorem buildPrompt_ok (inputCols : List ColName) (row : Row)
    (h : ∀ c ∈ inputCols, rowHas row c = true) :
    ∀ template, ∃ s, buildPrompt template inputCols row = Except.ok s := by
  induction inputCols with
  | nil => intro template; exact ⟨template, rfl⟩
  | cons c rest ih =>
    intro template
    obtain ⟨v, hv⟩ := rowGet_isSome_of_has row c (h c (by simp))
    have hrest := ih (fun d hd => h d (by simp [hd]))
    obtain ⟨s, hs⟩ := hrest (template ++ "\n" ++ c ++ ": " ++ pyToStr v)
    refine ⟨s, ?_⟩
    unfold buildPrompt at hs ⊢
    rw [List.foldlM_cons, hv]
    exact hs

/-- The retry loop makes at most `fuel` gateway calls. -/
theorem runAttempts_gw_le (header : List ColName) (rowNum : Nat) (outCol : ColName)
    (schema : Option Schema) (delay : Nat) (prompt : String) (gw : Nat → GwResult) :
    ∀ fuel attempt bound,
      (runAttempts header rowNum outCol schema delay prompt gw fuel attempt bound).1.countP
        Event.isGwCall ≤ fuel := by
  intro fuel
  induction fuel with
  | zero => intro attempt bound; simp [runAttempts]
  | succ n ih =>
    intro attempt bound
    unfold runAttempts
    cases hgw : gw attempt with
    | exn =>
      have := ih (attempt + 1) bound
      simp [List.countP_cons, Event.isGwCall]
      omega
    | res v =>
      by_cases ht : truthy v = true
      · cases hcol : colIndex header outCol with
        | some i => simp [ht, hcol, Event.isGwCall]
        | none =>
          by_cases hb : bound = true
          · simp [ht, hcol, hb, Event.isGwCall]
          · simp only [Bool.not_eq_true] at hb
            subst hb
            have := ih (attempt + 1) false
            simp [ht, hcol, List.countP_cons, Event.isGwCall]
            omega
      · have := ih (attempt + 1) bound
        simp [List.countP_cons, Event.isGwCall, ht]
        omega

/-- The retry loop never emits a save event. -/
theorem runAttempts_no_save (header : List ColName) (rowNum : Nat) (outCol : ColName)
    (schema : Option Schema) (delay : Nat) (prompt : String) (gw : Nat → GwResult) :
    ∀ fuel attempt bound,
      (runAttempts header rowNum outCol schema delay prompt gw fuel attempt bound).1.countP
        Event.isSave = 0 := by
  intro fuel
  induction fuel with
  | zero => intro attempt bound; simp [runAttempts]
  | succ n ih =>
    intro attempt bound
    unfold runAttempts
    cases hgw : gw attempt with
    | exn =>
      simpa [List.countP_cons, Event.isSave] using ih (attempt + 1) bound
    | res v =>
      by_cases ht : truthy v = true
      · cases hcol : colIndex header outCol with
        | some i => simp [ht, hcol, Event.isSave]
        | none =>
          by_cases hb : bound = true
          · simp [ht, hcol, hb, Event.isSave]
          · simp only [Bool.not_eq_true] at hb
            subst hb
            simpa [ht, hcol, List.countP_cons, Event.isSave] using ih (attempt + 1) false
      · simpa [List.countP_cons, Event.isSave, ht] using ih (attempt + 1) bound

/-- When the output column resolves to no header position, the retry loop
never emits a write event — neither on the logged break (`cell_reference`
bound) nor on the retried `UnboundLocalError` (unbound). -/
theorem runAttempts_no_write (header : List ColName) (rowNum : Nat) (outCol : ColName)
    (schema : Option Schema) (delay : Nat) (prompt : String) (gw : Nat → GwResult)
    (hcol : colIndex header outCol = Option.none) :
    ∀ fuel attempt bound,
      (runAttempts header rowNum outCol schema delay prompt gw fuel attempt bound).1.countP
        Event.isWriteEv = 0 := by
  intro fuel
  induction fuel with
  | zero => intro attempt bound; simp [runAttempts]
  | succ n ih =>
    intro attempt bound
    unfold runAttempts
    cases hgw : gw attempt with
    | exn =>
      simpa [List.countP_cons, Event.isWriteEv] using ih (attempt + 1) bound
    | res v =>
      by_cases ht : truthy v = true
      · by_cases hb : bound = true
        · simp [ht, hcol, hb, Event.isWriteEv]
        · simp only [Bool.not_eq_true] at hb
          subst hb
          simpa [ht, hcol, List.countP_cons, Event.isWriteEv] using ih (attempt + 1) false
      · simpa [List.countP_cons, Event.isWriteEv, ht] using ih (attempt + 1) bound

theorem processField_no_save (cfg : ProcCfg) (header : List ColName) (rowNum : Nat)
    (row : Row) (outCol : ColName) (fc : FieldConfig) (gw : Nat → GwResult)
    (bound : Bool) :
    (processField cfg header rowNum row outCol fc gw bound).1.countP Event.isSave = 0 := by
  unfold processField
  by_cases hsf : (fc.fetch_all || isBlankCell ((rowGet row outCol).getD PyVal.vnone)) = true
  · cases hbp : buildPrompt fc.prompt fc.input_columns row with
    | error c => simp [hsf, hbp]
    | ok prompt =>
      simpa [hsf, hbp, List.countP_append, List.countP_cons, Event.isSave] using
        runAttempts_no_save header rowNum outCol fc.schema cfg.retry_delay prompt gw
          cfg.retry_attempts 1 bound
  · simp at hsf
    simp [hsf]

theorem processFields_no_save (cfg : ProcCfg) (header : List ColName) (rowNum : Nat)
    (row : Row) (gw : ColName → Nat → GwResult) :
    ∀ fields bound,
      (processFields cfg header rowNum row gw bound fields).1.countP Event.isSave = 0 := by
  intro fields
  induction fields with
  | nil => intro bound; simp [processFields]
  | cons p rest ih =>
    intro bound
    obtain ⟨col, fc⟩ := p
    unfold processFields
    cases hf : (processField cfg header rowNum row col fc (gw col) bound).2.2 with
    | some e =>
      simp only [hf]
      exact processField_no_save cfg header rowNum row col fc (gw col) bound
    | none =>
      simp only [hf, List.countP_append]
      have h1 := processField_no_save cfg header rowNum row col fc (gw col) bound
      have h2 := ih ((processField cfg header rowNum row col fc (gw col) bound).2.1)
      omega

theorem processRow_no_save (cfg : ProcCfg) (header : List ColName) (rowNum : Nat)
    (row : Row) (gw : ColName → Nat → GwResult) :
    ∀ fields, (processRow cfg header rowNum row gw fields).1.countP Event.isSave = 0 :=
  fun fields => processFields_no_save cfg header rowNum row gw fields false

theorem runRows_no_save (cfg : ProcCfg) (fields : List (ColName × FieldConfig))
    (enabled : Bool) (criteria : List Criterion) (gw : Nat → ColName → Nat → GwResult) :
    ∀ fuel idx s,
      (runRows cfg fields enabled criteria gw fuel idx s).2.1.countP Event.isSave = 0 := by
  intro fuel
  induction fuel with
  | zero => intro idx s; simp [runRows]
  | succ n ih =>
    intro idx s
    unfold runRows
    by_cases hm :
        matches_criteria enabled criteria (s.header.zip (s.rows.getD (idx - 2) [])) = true
    · simp only [hm, if_true]
      cases hp : (processRow cfg s.header idx (s.header.zip (s.rows.getD (idx - 2) []))
          (gw idx) fields).2 with
      | some e =>
        simp only [hp]
        exact processRow_no_save cfg s.header idx _ (gw idx) fields
      | none =>
        simp only [hp, List.countP_append]
        have h1 := processRow_no_save cfg s.header idx
          (s.header.zip (s.rows.getD (idx - 2) [])) (gw idx) fields
        have h2 := ih (idx + 1)
          ((processRow cfg s.header idx (s.header.zip (s.rows.getD (idx - 2) []))
            (gw idx) fields).1.foldl applyEvent s)
        omega
    · simp only [Bool.not_eq_true] at hm
      simp only [hm, Bool.false_eq_true, if_false]
      exact ih (idx + 1) s

/-- A field whose input columns all exist in the row never raises, whatever
the gateway and binding state do. -/
theorem processField_no_raise (cfg : ProcCfg) (header : List ColName) (rowNum : Nat)
    (row : Row) (outCol : ColName) (fc : FieldConfig) (gw : Nat → GwResult)
    (bound : Bool) (hin : ∀ c ∈ fc.input_columns, rowHas row c = true) :
    (processField cfg header rowNum row outCol fc gw bound).2.2 = Option.none := by
  unfold processField
  by_cases hsf : (fc.fetch_all || isBlankCell ((rowGet row outCol).getD PyVal.vnone)) = true
  · obtain ⟨s, hs⟩ := buildPrompt_ok fc.input_columns row hin fc.prompt
    simp [hsf, hs]
  · simp at hsf
    simp [hsf]

/-- No field of a row whose input columns all exist raises, whatever the
gateway behaviors and the initial binding state. -/
theorem processFields_no_raise (cfg : ProcCfg) (header : List ColName) (rowNum : Nat)
    (row : Row) (gw : ColName → Nat → GwResult) :
    ∀ fields, (∀ p ∈ fields, ∀ c ∈ p.2.input_columns, rowHas row c = true) →
      ∀ bound, (processFields cfg header rowNum row gw bound fields).2 = Option.none := by
  intro fields
  induction fields with
  | nil => intro _ bound; rfl
  | cons p rest ih =>
    intro hin bound
    obtain ⟨col, fc⟩ := p
    have hf := processField_no_raise cfg header rowNum row col fc (gw col) bound
      (hin (col, fc) (by simp))
    unfold processFields
    simp only [hf]
    exact ih (fun q hq c hc => hin q (by simp [hq]) c hc) _

/-! ## Claims -/

/-- C1: for every row and configured output field, if the destination cell
holds a non-blank value and the field's `fetch_all` flag is false, processing
that field produces no events at all — in particular no gateway call and no
cell write — and raises nothing. -/
theorem C1_skip_invariant (cfg : ProcCfg) (header : List ColName) (rowNum : Nat)
    (row : Row) (outCol : ColName) (fc : FieldConfig) (gw : Nat → GwResult)
    (bound : Bool) (hfa : fc.fetch_all = false)
    (hnb : isBlankCell ((rowGet row outCol).getD PyVal.vnone) = false) :
    processField cfg header rowNum row outCol fc gw bound = ([], bound, Option.none) :=
  processField_skips cfg header rowNum row outCol fc gw bound hfa hnb

/-- Witness for C1 at Scenario B: `Difficulty` already holds `"hard"`,
`fetch_all` is false — no gateway call, cell unchanged. -/
theorem C1_skip_invariant_w :
    processField ⟨1, 3, 5⟩ ["Task", "Difficulty"] 2
      [("Task", PyVal.vstr "walk on 1 leg"), ("Difficulty", PyVal.vstr "hard")]
      "Difficulty" ⟨"p", false, Option.none, []⟩ (fun _ => GwResult.exn) false =
      ([], false, Option.none) :=
  C1_skip_invariant _ _ _ _ _ _ _ false rfl (by decide)

/-- C5: for every row and field, the gateway is invoked at most
`retry_attempts` times for that field in that row. -/
theorem C5_retry_bound (cfg : ProcCfg) (header : List ColName) (rowNum : Nat)
    (row : Row) (outCol : ColName) (fc : FieldConfig) (gw : Nat → GwResult)
    (bound : Bool) :
    (processField cfg header rowNum row outCol fc gw bound).1.countP Event.isGwCall ≤
      cfg.retry_attempts := by
  unfold processField
  by_cases hsf : (fc.fetch_all || isBlankCell ((rowGet row outCol).getD PyVal.vnone)) = true
  · cases hbp : buildPrompt fc.prompt fc.input_columns row with
    | error c => simp [hsf, hbp]
    | ok prompt =>
      have := runAttempts_gw_le header rowNum outCol fc.schema cfg.retry_delay prompt gw
        cfg.retry_attempts 1 bound
      simp only [hsf, hbp, if_true, List.countP_append, List.countP_cons, List.countP_nil]
      simp [Event.isGwCall]
      omega
  · simp at hsf
    simp [hsf]

/-- C7: for every run, the trace of `process_excel` ends with exactly one
workbook save: the `finally`-style save closes the trace whether the pass
completed cleanly or raised partway through, and no save occurs earlier. -/
theorem C7_persist_once (cfg : ProcCfg) (fields : List (ColName × FieldConfig))
    (enabled : Bool) (criteria : List Criterion) (sheet : Sheet)
    (gw : Nat → ColName → Nat → GwResult) :
    ∃ evs, (process_excel cfg fields enabled criteria sheet gw).2.1 =
        evs ++ [Event.save] ∧ evs.countP Event.isSave = 0 :=
  ⟨(runRows cfg fields enabled criteria gw sheet.rows.length 2 sheet).2.1, rfl,
    runRows_no_save cfg fields enabled criteria gw sheet.rows.length 2 sheet⟩

/-- C8: with filtering enabled, any criterion whose column is absent from the
row's column set makes the whole row fail the filter, regardless of the
remaining criteria. -/
theorem C8_fail_closed (criteria : List Criterion) (row : Row) (c : Criterion)
    (hmem : c ∈ criteria) (habs : rowHas row c.column = false) :
    matches_criteria true criteria row = false := by
  unfold matches_criteria
  have hne : criteria.isEmpty = false := by
    cases criteria with
    | nil => simp at hmem
    | cons a l => rfl
  simp only [hne, Bool.not_true, Bool.false_or, Bool.false_eq_true, if_false]
  have hc : criterionHolds row c = false := by
    unfold criterionHolds
    rw [rowGet_eq_none_of_not_has row c.column habs]
  rw [List.all_eq_false]
  exact ⟨c, hmem, by simp [hc]⟩

/-- Witness for C8 at Scenario-D-like data: criterion on column `Priority`,
row lacking that column — the row is excluded. -/
theorem C8_fail_closed_w :
    matches_criteria true [⟨"Priority", "equals", PyVal.vstr "High"⟩]
      [("Task", PyVal.vstr "walk on 1 leg")] = false :=
  C8_fail_closed _ _ ⟨"Priority", "equals", PyVal.vstr "High"⟩ (by simp) rfl

/-- C10: `create_completion` never lets an exception escape: whenever its
body raises (API failure or malformed `function_call` arguments), the
`except` handler turns the call's outcome into a `None` result for the
caller's retry loop. -/
theorem C10_no_raise (b : ApiBehavior)
    (h : create_completion_body b = Except.error ()) :
    create_completion b = Option.none := by
  unfold create_completion
  rw [h]

/-- Witness for C10 at a raising API call. -/
theorem C10_no_raise_w : create_completion ApiBehavior.raises = Option.none :=
  C10_no_raise ApiBehavior.raises rfl

/-- C2 counterexample: a run whose configured output column `X` matches no
header cell (header is `["A"]`) does NOT fail at startup: row processing
begins and the gateway is called on every attempt — the write-time
`ValueError` from `get_column_letter` turns into an `UnboundLocalError` in
the inner handler's log f-string (no prior write bound `cell_reference`),
so the outer `except` sleeps `retry_delay` and retries to exhaustion — and
the run finishes with no error and no write. -/
theorem C2_cex :
    process_excel ⟨1, 3, 5⟩ [("X", ⟨"p", false, Option.none, []⟩)] false []
        ⟨["A"], [[PyVal.vstr "a1"]]⟩ (fun _ _ _ => GwResult.res (PyVal.vstr "hello")) =
      (⟨["A"], [[PyVal.vstr "a1"]]⟩,
        [Event.gwCall "X" 1 "p", Event.retrySleep 5, Event.gwCall "X" 2 "p",
          Event.retrySleep 5, Event.gwCall "X" 3 "p", Event.retrySleep 5,
          Event.paceSleep 1, Event.save], Option.none) := by
  rfl

/-- C2 amended: an output column that matches no header cell is not detected
at startup and never aborts the run; the failure surfaces per cell at write
time inside the retry loop — when no earlier write of the row bound
`cell_reference`, the inner handler's own logging raises and the outer
handler sleeps `retry_delay` and retries until the attempts are exhausted;
when an earlier write did bind it, the handler logs and breaks — either way
the field raises nothing out of `process_row` (provided its input columns
exist) and no cell is ever written for it. -/
theorem C2_amended (cfg : ProcCfg) (header : List ColName) (rowNum : Nat)
    (row : Row) (outCol : ColName) (fc : FieldConfig) (gw : Nat → GwResult)
    (bound : Bool) (hcol : colIndex header outCol = Option.none)
    (hin : ∀ c ∈ fc.input_columns, rowHas row c = true) :
    (processField cfg header rowNum row outCol fc gw bound).2.2 = Option.none ∧
      (processField cfg header rowNum row outCol fc gw bound).1.countP
        Event.isWriteEv = 0 := by
  unfold processField
  by_cases hsf : (fc.fetch_all || isBlankCell ((rowGet row outCol).getD PyVal.vnone)) = true
  · obtain ⟨s, hs⟩ := buildPrompt_ok fc.input_columns row hin fc.prompt
    have := runAttempts_no_write header rowNum outCol fc.schema cfg.retry_delay s gw hcol
      cfg.retry_attempts 1 bound
    constructor
    · simp [hsf, hs]
    · simpa [hsf, hs, List.countP_append, List.countP_cons, Event.isWriteEv] using this
  · simp at hsf
    simp [hsf]

/-- Witness for C2 amended: the unresolvable column `X` of `C2_cex`'s
configuration raises nothing and writes nothing. -/
theorem C2_amended_w :
    (processField ⟨1, 3, 5⟩ ["A"] 2 [("A", PyVal.vstr "a1")] "X"
        ⟨"p", false, Option.none, []⟩ (fun _ => GwResult.res (PyVal.vstr "hello"))
        false).2.2 = Option.none ∧
      (processField ⟨1, 3, 5⟩ ["A"] 2 [("A", PyVal.vstr "a1")] "X"
        ⟨"p", false, Option.none, []⟩ (fun _ => GwResult.res (PyVal.vstr "hello"))
        false).1.countP Event.isWriteEv = 0 :=
  C2_amended _ _ _ _ _ _ _ false (by decide) (by simp)

/-- C3 counterexample: a field whose `input_columns` names a column `B`
absent from the row raises during prompt construction — outside the retry
loop's `try` — so the error escapes the row and aborts the run (after the
`finally` save): `process_excel` carries out `Option.some "B"` with nothing
processed. -/
theorem C3_cex :
    process_excel ⟨1, 3, 5⟩ [("X", ⟨"p", false, Option.none, ["B"]⟩)] false []
        ⟨["A", "X"], [[PyVal.vstr "a", PyVal.vnone]]⟩
        (fun _ _ _ => GwResult.res (PyVal.vstr "hello")) =
      (⟨["A", "X"], [[PyVal.vstr "a", PyVal.vnone]]⟩, [Event.save],
        Option.some "B") := by
  rfl

/-- C3 amended: errors in the gateway-call, extraction and write phases of a
field are recovered inside the row — for ANY per-attempt gateway behavior
(exceptions included) the row raises nothing — but this holds only provided
every fetched field's input columns exist in the row; a missing input column
raises out of the row during prompt construction (see `C3_cex`). -/
theorem C3_amended (cfg : ProcCfg) (header : List ColName) (rowNum : Nat)
    (row : Row) (gw : ColName → Nat → GwResult)
    (fields : List (ColName × FieldConfig))
    (hin : ∀ p ∈ fields, ∀ c ∈ p.2.input_columns, rowHas row c = true) :
    (processRow cfg header rowNum row gw fields).2 = Option.none :=
  processFields_no_raise cfg header rowNum row gw fields hin false

/-- Witness for C3 amended: a row whose field's input column `A` exists never
raises, even with the gateway throwing on every attempt. -/
theorem C3_amended_w :
    (processRow ⟨1, 3, 5⟩ ["A", "X"] 2 [("A", PyVal.vstr "a"), ("X", PyVal.vnone)]
        (fun _ _ => GwResult.exn) [("X", ⟨"p", false, Option.none, ["A"]⟩)]).2 =
      Option.none :=
  C3_amended _ _ _ _ _ _ (by decide)

/-- C4 counterexample: with `retry_delay = 5` configured, three consecutive
failing attempts that fail by an empty result are retried back to back — the
trace holds no `retrySleep` at all, only the per-field pacing sleep. -/
theorem C4_cex :
    processField ⟨1, 3, 5⟩ ["A", "X"] 2 [("A", PyVal.vstr "a"), ("X", PyVal.vnone)]
        "X" ⟨"p", false, Option.none, []⟩ (fun _ => GwResult.res PyVal.vnone) false =
      ([Event.gwCall "X" 1 "p", Event.gwCall "X" 2 "p", Event.gwCall "X" 3 "p",
        Event.paceSleep 1], false, Option.none) ∧
      (processField ⟨1, 3, 5⟩ ["A", "X"] 2 [("A", PyVal.vstr "a"), ("X", PyVal.vnone)]
        "X" ⟨"p", false, Option.none, []⟩ (fun _ => GwResult.res PyVal.vnone)
        false).1.countP Event.isRetrySleepEv = 0 :=
  ⟨rfl, rfl⟩

/-- C4 amended: the retry delay separates attempts only when an attempt fails
by raising an exception; an attempt that fails with an empty/null result
moves to the next attempt immediately, with no delay. -/
theorem C4_amended (header : List ColName) (rowNum : Nat) (outCol : ColName)
    (schema : Option Schema) (delay : Nat) (prompt : String) (gw : Nat → GwResult)
    (fuel attempt : Nat) (bound : Bool) :
    (gw attempt = GwResult.exn →
      runAttempts header rowNum outCol schema delay prompt gw (fuel + 1) attempt bound =
        (Event.gwCall outCol attempt prompt :: Event.retrySleep delay ::
            (runAttempts header rowNum outCol schema delay prompt gw fuel (attempt + 1)
              bound).1,
          (runAttempts header rowNum outCol schema delay prompt gw fuel (attempt + 1)
            bound).2)) ∧
    (∀ v, gw attempt = GwResult.res v → truthy v = false →
      runAttempts header rowNum outCol schema delay prompt gw (fuel + 1) attempt bound =
        (Event.gwCall outCol attempt prompt ::
            (runAttempts header rowNum outCol schema delay prompt gw fuel (attempt + 1)
              bound).1,
          (runAttempts header rowNum outCol schema delay prompt gw fuel (attempt + 1)
            bound).2)) := by
  constructor
  · intro h
    conv_lhs => rw [runAttempts]
    rw [h]
  · intro v h ht
    conv_lhs => rw [runAttempts]
    rw [h]
    simp [ht]

/-- Witness for C4 amended: an exception-failing attempt sleeps 5 seconds
before attempt 2; an empty-result attempt retries immediately. -/
theorem C4_amended_w :
    runAttempts ["X"] 2 "X" Option.none 5 "p" (fun _ => GwResult.exn) 3 1 false =
      (Event.gwCall "X" 1 "p" :: Event.retrySleep 5 ::
          (runAttempts ["X"] 2 "X" Option.none 5 "p" (fun _ => GwResult.exn) 2 (1 + 1)
            false).1,
        (runAttempts ["X"] 2 "X" Option.none 5 "p" (fun _ => GwResult.exn) 2 (1 + 1)
          false).2) ∧
    runAttempts ["X"] 2 "X" Option.none 5 "p" (fun _ => GwResult.res PyVal.vnone) 3 1
        false =
      (Event.gwCall "X" 1 "p" ::
          (runAttempts ["X"] 2 "X" Option.none 5 "p" (fun _ => GwResult.res PyVal.vnone)
            2 (1 + 1) false).1,
        (runAttempts ["X"] 2 "X" Option.none 5 "p" (fun _ => GwResult.res PyVal.vnone)
          2 (1 + 1) false).2) :=
  ⟨(C4_amended ["X"] 2 "X" Option.none 5 "p" (fun _ => GwResult.exn) 2 1 false).1 rfl,
    (C4_amended ["X"] 2 "X" Option.none 5 "p" (fun _ => GwResult.res PyVal.vnone) 2 1
      false).2 PyVal.vnone rfl rfl⟩

/-- C6 counterexample: an empty structured result `{}` under a schema whose
property set is the non-empty `["risk_level"]` is NOT stored as the `"N/A"`
sentinel — `{}` is falsy at `if result:`, so every attempt is treated as a
failed (empty) one and no write happens at all. -/
theorem C6_cex :
    processField ⟨1, 3, 5⟩ ["A", "X"] 2 [("A", PyVal.vstr "a"), ("X", PyVal.vnone)]
        "X" ⟨"p", false, Option.some ⟨Option.some "f", ["risk_level"]⟩, []⟩
        (fun _ => GwResult.res (PyVal.vdict [])) false =
      ([Event.gwCall "X" 1 "p", Event.gwCall "X" 2 "p", Event.gwCall "X" 3 "p",
        Event.paceSleep 1], false, Option.none) ∧
      (processField ⟨1, 3, 5⟩ ["A", "X"] 2 [("A", PyVal.vstr "a"), ("X", PyVal.vnone)]
        "X" ⟨"p", false, Option.some ⟨Option.some "f", ["risk_level"]⟩, []⟩
        (fun _ => GwResult.res (PyVal.vdict [])) false).1.countP Event.isWriteEv = 0 :=
  ⟨rfl, rfl⟩

/-- C6 amended: for every NON-EMPTY structured (dict) gateway result obtained
under a schema with a non-empty property set, the stored value is the value
of the first property in the schema's declaration order, and the default
sentinel `"N/A"` when the result object lacks that property; an empty dict
result is falsy and treated as a failed attempt, storing nothing (see
`C6_cex`). -/
theorem C6_amended (header : List ColName) (rowNum : Nat) (outCol : ColName)
    (nm : Option String) (p : String) (ps : List String) (delay : Nat)
    (prompt : String) (gw : Nat → GwResult) (fuel attempt : Nat) (bound : Bool)
    (kvs : List (String × PyVal)) (i : Nat)
    (hk : kvs ≠ []) (hgw : gw attempt = GwResult.res (PyVal.vdict kvs))
    (hcol : colIndex header outCol = Option.some i) :
    runAttempts header rowNum outCol (Option.some ⟨nm, p :: ps⟩) delay prompt gw
        (fuel + 1) attempt bound =
      ([Event.gwCall outCol attempt prompt,
        Event.write outCol rowNum ((dictGet kvs p).getD (PyVal.vstr "N/A"))], true) := by
  conv_lhs => rw [runAttempts]
  rw [hgw]
  have ht : truthy (PyVal.vdict kvs) = true := by
    simp [truthy, hk]
  simp [ht, hcol, extractValue]

/-- Witness for C6 amended at Scenario E: structured response
`{"risk_level": "N/A", "other_prop": "x"}` under a schema declaring
`["risk_level", "other_prop"]` stores `"N/A"`, the first declared property
(and at a result lacking the first property the sentinel is stored). -/
theorem C6_amended_w :
    runAttempts ["A", "X"] 2 "X"
        (Option.some ⟨Option.some "f", ["risk_level", "other_prop"]⟩) 5 "p"
        (fun _ => GwResult.res
          (PyVal.vdict [("risk_level", PyVal.vstr "N/A"), ("other_prop", PyVal.vstr "x")]))
        3 1 false =
      ([Event.gwCall "X" 1 "p", Event.write "X" 2 (PyVal.vstr "N/A")], true) ∧
    runAttempts ["A", "X"] 2 "X"
        (Option.some ⟨Option.some "f", ["risk_level", "other_prop"]⟩) 5 "p"
        (fun _ => GwResult.res (PyVal.vdict [("other", PyVal.vstr "x")])) 3 1 false =
      ([Event.gwCall "X" 1 "p", Event.write "X" 2 (PyVal.vstr "N/A")], true) := by
  constructor
  · have h := C6_amended ["A", "X"] 2 "X" (Option.some "f") "risk_level" ["other_prop"]
      5 "p"
      (fun _ => GwResult.res
        (PyVal.vdict [("risk_level", PyVal.vstr "N/A"), ("other_prop", PyVal.vstr "x")]))
      2 1 false [("risk_level", PyVal.vstr "N/A"), ("other_prop", PyVal.vstr "x")] 1
      (by simp) rfl (by decide)
    simpa [dictGet] using h
  · have h := C6_amended ["A", "X"] 2 "X" (Option.some "f") "risk_level" ["other_prop"]
      5 "p" (fun _ => GwResult.res (PyVal.vdict [("other", PyVal.vstr "x")]))
      2 1 false [("other", PyVal.vstr "x")] 1 (by simp) rfl (by decide)
    simpa [dictGet] using h

/-- A row all of whose configured fields are populated and non-`fetch_all`
is processed without any event or exception. -/
theorem processFields_skips (cfg : ProcCfg) (header : List ColName) (rowNum : Nat)
    (row : Row) (gw : ColName → Nat → GwResult) :
    ∀ fields, (∀ p ∈ fields, p.2.fetch_all = false ∧
      isBlankCell ((rowGet row p.1).getD PyVal.vnone) = false) →
    ∀ bound, processFields cfg header rowNum row gw bound fields = ([], Option.none) := by
  intro fields
  induction fields with
  | nil => intro _ bound; rfl
  | cons p rest ih =>
    intro h bound
    obtain ⟨col, fc⟩ := p
    obtain ⟨h1, h2⟩ := h (col, fc) (by simp)
    unfold processFields
    rw [processField_skips cfg header rowNum row col fc (gw col) bound h1 h2]
    simpa using ih (fun q hq => h q (by simp [hq])) bound

theorem processRow_skips (cfg : ProcCfg) (header : List ColName) (rowNum : Nat)
    (row : Row) (gw : ColName → Nat → GwResult)
    (fields : List (ColName × FieldConfig))
    (h : ∀ p ∈ fields, p.2.fetch_all = false ∧
      isBlankCell ((rowGet row p.1).getD PyVal.vnone) = false) :
    processRow cfg header rowNum row gw fields = ([], Option.none) :=
  processFields_skips cfg header rowNum row gw fields h false

/-- The sheet loop is a no-op on a fully populated sheet when no field has
`fetch_all`: no events, no exception, sheet returned unchanged. -/
theorem runRows_noop (cfg : ProcCfg) (fields : List (ColName × FieldConfig))
    (enabled : Bool) (criteria : List Criterion) (gw : Nat → ColName → Nat → GwResult)
    (s : Sheet)
    (hfa : ∀ p ∈ fields, p.2.fetch_all = false)
    (hfull : ∀ i, i < s.rows.length → ∀ p ∈ fields,
      isBlankCell ((rowGet (s.header.zip (s.rows.getD i [])) p.1).getD PyVal.vnone)
        = false) :
    ∀ fuel idx, 2 ≤ idx → idx - 2 + fuel ≤ s.rows.length →
      runRows cfg fields enabled criteria gw fuel idx s = (s, [], Option.none) := by
  intro fuel
  induction fuel with
  | zero => intro idx _ _; rfl
  | succ n ih =>
    intro idx hidx hlen
    have hrow : idx - 2 < s.rows.length := by omega
    have hskip := processRow_skips cfg s.header idx (s.header.zip (s.rows.getD (idx - 2) []))
      (gw idx) fields
      (fun p hp => ⟨hfa p hp, hfull (idx - 2) hrow p hp⟩)
    have hrec := ih (idx + 1) (by omega) (by omega)
    unfold runRows
    simp only [List.getD_eq_getElem?_getD] at hskip
    by_cases hm : matches_criteria enabled criteria
        (s.header.zip ((s.rows[idx - 2]?).getD [])) = true
    · simp [hm, hskip, hrec]
    · simp at hm
      simp [hm, hrec]

/-- C9: running the enrichment pass over a sheet in which, for every data row,
every configured output column holds a non-blank value, with `fetch_all`
false for every field, performs zero gateway calls (the trace is just the
final save) and leaves the sheet unchanged. -/
theorem C9_idempotent (cfg : ProcCfg) (fields : List (ColName × FieldConfig))
    (enabled : Bool) (criteria : List Criterion) (sheet : Sheet)
    (gw : Nat → ColName → Nat → GwResult)
    (hfa : ∀ p ∈ fields, p.2.fetch_all = false)
    (hfull : ∀ i, i < sheet.rows.length → ∀ p ∈ fields,
      isBlankCell ((rowGet (sheet.header.zip (sheet.rows.getD i [])) p.1).getD
        PyVal.vnone) = false) :
    process_excel cfg fields enabled criteria sheet gw =
      (sheet, [Event.save], Option.none) := by
  unfold process_excel
  rw [runRows_noop cfg fields enabled criteria gw sheet hfa hfull sheet.rows.length 2
    (by omega) (by omega)]
  rfl

/-- Witness for C9 at Scenario-B-like data: a one-row sheet whose output
column `Difficulty` already holds `"hard"` — a rerun is a pure no-op. -/
theorem C9_idempotent_w :
    process_excel ⟨1, 3, 5⟩ [("Difficulty", ⟨"p", false, Option.none, ["Task"]⟩)]
        false [] ⟨["Task", "Difficulty"],
          [[PyVal.vstr "walk on 1 leg", PyVal.vstr "hard"]]⟩
        (fun _ _ _ => GwResult.res (PyVal.vstr "easy")) =
      (⟨["Task", "Difficulty"], [[PyVal.vstr "walk on 1 leg", PyVal.vstr "hard"]]⟩,
        [Event.save], Option.none) :=
  C9_idempotent _ _ _ _ _ _ (by decide) (by decide)

end ExcelProc
